import Mathlib

/-!
Verification of the timetable core of this repository: the `Hour` modular
clock type, the pause interval algebra (`Pause`, `Pauses`, `PausesContainer`),
the timetable DSL parser (`TimetableParser` with its lesson-line grammar), and
the geometric layout helpers (`HoursManager.y_for_hour`, `PatchedFPDF.cell`
auto-fit, `LessonMetrics.calculate`).

Conventions of the embedding:
* Python ints are `Int`/`Nat`; Python floats that the layout code manipulates
  are represented as `ℚ` (all the arithmetic involved is exact).
* A raised Python exception is an `Except.error`.
* Minute totals follow `timetable/utils.py`: every constructor normalises with
  `% (24 * 60)`, which for Python (and for `Int.emod`) always lands in
  `[0, 1440)`.
-/

/-- The representation of an hour, from `timetable/utils.py` (`class Hour`).
The Python object stores a single normalised minute count `self.total`. -/
structure Hour where
  total : ℕ
deriving DecidableEq

/-- `Hour(total, True)`: create an `Hour` directly from a (possibly negative)
minute total; the constructor stores `int(hour % (24 * 60))`. -/
def Hour.ofTotal (n : Int) : Hour :=
  ⟨(n % 1440).toNat⟩

/-- `Hour(h, m)`: the hour/minute constructor accumulates `h * 60 + m` and
normalises with `% (24 * 60)`. -/
def Hour.hm (h m : Int) : Hour :=
  Hour.ofTotal (h * 60 + m)

/-- `Hour.__add__`: `Hour(self.total + other.total, True)`. -/
def Hour.add (a b : Hour) : Hour :=
  Hour.ofTotal ((a.total : Int) + (b.total : Int))

/-- `Hour.__sub__`: `Hour(self.total - other.total, True)`. -/
def Hour.sub (a b : Hour) : Hour :=
  Hour.ofTotal ((a.total : Int) - (b.total : Int))

/-- `Hour.hour` / `Hour.__int__`: `self.total // 60` (totals are never
negative, so `Nat` floor division agrees with Python). -/
def Hour.hourNum (a : Hour) : ℕ :=
  a.total / 60

/-- `Hour.floor(interval)`: `self // interval * type(self)(interval)`.
`self // interval` is `self.total // interval.total` and the final
multiplication re-enters the constructor (`Hour(interval.total * k, True)`).
The interval argument is modelled already converted to an `Hour`, which is
what `type(self)(interval)` produces.  `interval.total = 0` raises
`ZeroDivisionError` in Python; here `Nat` division by zero yields `0`, and
every theorem below assumes a positive interval. -/
def Hour.floorI (a ivl : Hour) : Hour :=
  Hour.ofTotal ((ivl.total * (a.total / ivl.total) : ℕ) : Int)

/-- `Hour.ceil(interval)`:
`self.floor(interval) + (0 if (self % interval).total == 0 else interval)`.
`(self % interval).total` is `a.total % ivl.total` and the `+` wraps through
`Hour.__add__`. -/
def Hour.ceilI (a ivl : Hour) : Hour :=
  (a.floorI ivl).add (if a.total % ivl.total = 0 then Hour.ofTotal 0 else ivl)

/-- The minute total produced by `Hour.ofTotal` on a natural number input. -/
theorem Hour.ofTotal_natCast (m : ℕ) : (Hour.ofTotal (m : Int)).total = m % 1440 := by
  simp [Hour.ofTotal]
  omega

/-- Every constructed total is `< 1440`. -/
theorem Hour.ofTotal_total_lt (n : Int) : (Hour.ofTotal n).total < 1440 := by
  have h1 : (0 : Int) ≤ n % 1440 := Int.emod_nonneg n (by norm_num)
  have h2 : n % 1440 < 1440 := Int.emod_lt_of_pos n (by norm_num)
  simp [Hour.ofTotal]
  omega

/-- Two `Hour` values with equal totals are equal. -/
theorem Hour.eq_of_total {a b : Hour} (h : a.total = b.total) : a = b := by
  cases a
  cases b
  simpa using h

/-- C7: for every integer `raw`, `Hour(raw, True)` stores `raw mod 1440`
(Python `%` on a positive modulus agrees with `Int.emod`), so negative
inputs wrap — `Hour(-1, True)` is `23:59` — and `Hour.__add__` wraps modulo
1440, so `Hour(23, 59) + Hour(0, 2) = Hour(0, 1)`. -/
theorem hour_ofTotal_mod_and_add_wraps (raw : Int) :
    ((Hour.ofTotal raw).total : Int) = raw % 1440
    ∧ Hour.ofTotal (-1) = Hour.hm 23 59
    ∧ (Hour.hm 23 59).add (Hour.hm 0 2) = Hour.hm 0 1 := by
  refine ⟨?_, by decide, by decide⟩
  have h1 : (0 : Int) ≤ raw % 1440 := Int.emod_nonneg raw (by norm_num)
  simp [Hour.ofTotal, Int.toNat_of_nonneg h1]

/-- C8 counterexample: `Hour(23, 30).ceil(Hour(1, 0))` wraps past midnight to
`Hour(0, 0)`, whose total `0` is *below* the value being rounded, so `ceil`
does not return the smallest multiple of the interval not below the value. -/
theorem hour_ceil_wraps_counterexample :
    (Hour.hm 23 30).ceilI (Hour.hm 1 0) = Hour.hm 0 0
    ∧ ((Hour.hm 23 30).ceilI (Hour.hm 1 0)).total < (Hour.hm 23 30).total := by
  constructor <;> decide

/-- C8 (amended): for every `Hour` and positive interval, `floor` returns the
largest multiple of the interval not above the value; exact multiples are left
unchanged by both `floor` and `ceil`; and `ceil` returns the smallest multiple
not below the value *whenever that multiple is below 1440* (otherwise the
wrap-around addition carries it past midnight, see the counterexample). -/
theorem hour_floor_ceil_amended (a ivl : Hour) (ha : a.total < 1440) (hi : 0 < ivl.total) :
    (ivl.total ∣ (a.floorI ivl).total
      ∧ (a.floorI ivl).total ≤ a.total
      ∧ ∀ m : ℕ, ivl.total ∣ m → m ≤ a.total → m ≤ (a.floorI ivl).total)
    ∧ (ivl.total ∣ a.total → a.floorI ivl = a ∧ a.ceilI ivl = a)
    ∧ (¬ ivl.total ∣ a.total → (a.floorI ivl).total + ivl.total < 1440 →
        ivl.total ∣ (a.ceilI ivl).total
          ∧ a.total ≤ (a.ceilI ivl).total
          ∧ ∀ m : ℕ, ivl.total ∣ m → a.total ≤ m → (a.ceilI ivl).total ≤ m) := by
  have hmul_le : ivl.total * (a.total / ivl.total) ≤ a.total := Nat.mul_div_le a.total ivl.total
  have hfloor_total : (a.floorI ivl).total = ivl.total * (a.total / ivl.total) := by
    rw [Hour.floorI, Hour.ofTotal_natCast, Nat.mod_eq_of_lt (lt_of_le_of_lt hmul_le ha)]
  refine ⟨⟨?_, ?_, ?_⟩, ?_, ?_⟩
  · rw [hfloor_total]; exact Dvd.intro _ rfl
  · rw [hfloor_total]; exact hmul_le
  · intro m hdvd hle
    rw [hfloor_total]
    obtain ⟨q, rfl⟩ := hdvd
    have hq : q ≤ a.total / ivl.total :=
      (Nat.le_div_iff_mul_le hi).mpr (by rw [Nat.mul_comm]; exact hle)
    exact Nat.mul_le_mul_left _ hq
  · intro hdvd
    have hmod : a.total % ivl.total = 0 := Nat.mod_eq_zero_of_dvd hdvd
    have hfe : a.floorI ivl = a := by
      have hc : ivl.total * (a.total / ivl.total) = a.total := Nat.mul_div_cancel' hdvd
      exact Hour.eq_of_total (by rw [hfloor_total, hc])
    refine ⟨hfe, ?_⟩
    rw [Hour.ceilI, if_pos hmod, hfe]
    apply Hour.eq_of_total
    show (Hour.ofTotal ((a.total : Int) + ((Hour.ofTotal 0).total : Int))).total = a.total
    have h0 : (Hour.ofTotal 0).total = 0 := by decide
    rw [h0]
    push_cast
    rw [Int.add_zero]
    rw [show ((a.total : Int)) = ((a.total : ℕ) : Int) from rfl, Hour.ofTotal_natCast]
    exact Nat.mod_eq_of_lt ha
  · intro hndvd hroom
    have hmod : a.total % ivl.total ≠ 0 := fun h => hndvd (Nat.dvd_of_mod_eq_zero h)
    have hceil_total : (a.ceilI ivl).total = ivl.total * (a.total / ivl.total) + ivl.total := by
      rw [Hour.ceilI, if_neg hmod, Hour.add]
      rw [hfloor_total] at hroom ⊢
      have : ((ivl.total * (a.total / ivl.total) : ℕ) : Int) + (ivl.total : Int)
          = ((ivl.total * (a.total / ivl.total) + ivl.total : ℕ) : Int) := by push_cast; ring
      rw [this, Hour.ofTotal_natCast, Nat.mod_eq_of_lt hroom]
    refine ⟨?_, ?_, ?_⟩
    · rw [hceil_total]
      exact ⟨a.total / ivl.total + 1, by ring⟩
    · rw [hceil_total]
      have hdm := Nat.div_add_mod a.total ivl.total
      have hml : a.total % ivl.total < ivl.total := Nat.mod_lt _ hi
      omega
    · intro m hdvd hle
      rw [hceil_total]
      obtain ⟨q, rfl⟩ := hdvd
      have hq : a.total / ivl.total < q := by
        by_contra hcon
        push_neg at hcon
        have hle2 : ivl.total * q ≤ ivl.total * (a.total / ivl.total) :=
          Nat.mul_le_mul_left _ hcon
        have hlt : ivl.total * (a.total / ivl.total) < a.total := by
          have hdm := Nat.div_add_mod a.total ivl.total
          omega
        omega
      calc ivl.total * (a.total / ivl.total) + ivl.total
          = ivl.total * (a.total / ivl.total + 1) := by ring
        _ ≤ ivl.total * q := Nat.mul_le_mul_left _ hq

/-- C8 witness: the amended theorem applied at `8:30` with interval one hour,
reproducing the claim examples `floor = 8:00` and `ceil = 9:00`. -/
theorem hour_floor_ceil_amended_witness :
    (Hour.hm 8 30).total < 1440 ∧ 0 < (Hour.hm 1 0).total
    ∧ ((Hour.hm 1 0).total ∣ ((Hour.hm 8 30).floorI (Hour.hm 1 0)).total
      ∧ ((Hour.hm 8 30).floorI (Hour.hm 1 0)).total ≤ (Hour.hm 8 30).total
      ∧ ∀ m : ℕ, (Hour.hm 1 0).total ∣ m → m ≤ (Hour.hm 8 30).total →
          m ≤ ((Hour.hm 8 30).floorI (Hour.hm 1 0)).total)
    ∧ (Hour.hm 8 30).floorI (Hour.hm 1 0) = Hour.hm 8 0
    ∧ (Hour.hm 8 30).ceilI (Hour.hm 1 0) = Hour.hm 9 0 :=
  ⟨by decide, by decide,
    (hour_floor_ceil_amended (Hour.hm 8 30) (Hour.hm 1 0) (by decide) (by decide)).1,
    by decide, by decide⟩

/-! ## Interval algebra: `Pause`, `Pauses`, `PausesContainer` -/

/-- A pause (a range between two `Hour`s), from `timetable/utils.py`. -/
structure Pause where
  start : Hour
  endH : Hour
deriving DecidableEq

/-- `Pause.__bool__`: the pause is non-empty iff its two hours differ. -/
def Pause.nonEmptyB (p : Pause) : Bool :=
  decide (p.start ≠ p.endH)

/-- `Pause.__contains__` on an `Hour`: `self.start <= other <= self.end`
(`Hour` comparisons compare the totals). -/
def Pause.containsHourB (p : Pause) (h : Hour) : Bool :=
  decide (p.start.total ≤ h.total) && decide (h.total ≤ p.endH.total)

/-- `Pause.__contains__` on a `Pause`:
`self.start <= other.start and other.end <= self.end`. -/
def Pause.containsPauseB (p o : Pause) : Bool :=
  decide (p.start.total ≤ o.start.total) && decide (o.endH.total ≤ p.endH.total)

/-- Python `max(*hours)`.  With two or more arguments it folds keeping the
current value on ties; with exactly one argument the star-unpacking turns it
into `max(one_hour)`, which raises `TypeError` because `Hour` is not
iterable; the zero-argument call is guarded before reaching `max`. -/
def pyMaxHour : List Hour → Except Unit Hour
  | [] => .error ()
  | [_] => .error ()
  | x :: y :: t => .ok ((y :: t).foldl (fun a b => if a.total < b.total then b else a) x)

/-- Python `min(*hours)`, with the same single-argument `TypeError`. -/
def pyMinHour : List Hour → Except Unit Hour
  | [] => .error ()
  | [_] => .error ()
  | x :: y :: t => .ok ((y :: t).foldl (fun a b => if b.total < a.total then b else a) x)

/-- `Pause.intersection(*pauses)` from `timetable/utils.py`: guard the empty
call, take `max` of the starts and `min` of the ends (through Python
`max(*...)`/`min(*...)`, see `pyMaxHour`), return `None` when `end < start`.
An `Except.error` models the `TypeError` escaping the call. -/
def Pause.interList (pauses : List Pause) : Except Unit (Option Pause) :=
  if pauses.isEmpty then .ok none
  else
    match pyMaxHour (pauses.map (·.start)), pyMinHour (pauses.map (·.endH)) with
    | .ok s, .ok e => if e.total < s.total then .ok none else .ok (some ⟨s, e⟩)
    | .error u, _ => .error u
    | _, .error u => .error u

/-- The `Pause` objects for a day, from `timetable/utils.py` (`class Pauses`). -/
structure Pauses where
  start : Hour
  endH : Hour
  pauses : List Pause
deriving DecidableEq

/-- `Pauses.__iter__`: the leading implicit pause `Pause(Hour(0), start)`,
the explicit pauses in order, then the trailing implicit pause
`Pause(end, Hour(-1, True))`. -/
def Pauses.iterL (ps : Pauses) : List Pause :=
  ⟨Hour.hm 0 0, ps.start⟩ :: ps.pauses ++ [⟨ps.endH, Hour.ofTotal (-1)⟩]

/-- `Pauses.__contains__` on an `Hour`: empty pause list means everything is
contained; an hour at or outside the day bounds is contained; otherwise the
loop scans only the *explicit* pauses (`for pause in self.pauses`). -/
def Pauses.containsHourB (ps : Pauses) (h : Hour) : Bool :=
  if ps.pauses.isEmpty then true
  else if decide (h.total ≤ ps.start.total) || decide (ps.endH.total ≤ h.total) then true
  else ps.pauses.any (fun p => p.containsHourB h)

/-- `Pauses.__contains__` on a `Pause` (same structure, the outside-the-day
test compares both endpoints). -/
def Pauses.containsPauseB (ps : Pauses) (o : Pause) : Bool :=
  if ps.pauses.isEmpty then true
  else if decide (o.endH.total ≤ ps.start.total) || decide (ps.endH.total ≤ o.start.total) then true
  else ps.pauses.any (fun p => p.containsPauseB o)

/-- The claim reading of `PauseSet.contains` on an `Hour`: same first two
branches, but the final scan covers the explicit *and* the implicit boundary
pauses (`Pauses.iterL`). -/
def specPausesContainsHour (ps : Pauses) (h : Hour) : Bool :=
  if ps.pauses.isEmpty then true
  else if decide (h.total ≤ ps.start.total) || decide (ps.endH.total ≤ h.total) then true
  else ps.iterL.any (fun p => p.containsHourB h)

/-- The claim reading of `PauseSet.contains` on a `Pause`. -/
def specPausesContainsPause (ps : Pauses) (o : Pause) : Bool :=
  if ps.pauses.isEmpty then true
  else if decide (o.endH.total ≤ ps.start.total) || decide (ps.endH.total ≤ o.start.total) then true
  else ps.iterL.any (fun p => p.containsPauseB o)

/-- The container of per-day pauses, from `timetable/utils.py`. -/
structure PausesContainer where
  start_hour : Hour
  end_hour : Hour
  days : List Pauses
deriving DecidableEq

/-- `itertools.product` over a list of lists, in Python order (rightmost
factor varies fastest). -/
def prodL {α : Type} : List (List α) → List (List α)
  | [] => [[]]
  | xs :: rest => xs.flatMap (fun x => (prodL rest).map (fun t => x :: t))

/-- The loop body of `PausesContainer.intersection`: walk the product
combinations in order; an empty combination breaks out returning `None`;
otherwise compute `Pause.intersection` (whose `TypeError` aborts everything)
and return the first non-empty intersection contained in `bound`. -/
def containerGo (bound : Pause) : List (List Pause) → Except Unit (Option Pause)
  | [] => .ok none
  | combo :: rest =>
    if combo.length = 0 then .ok none
    else
      match Pause.interList combo with
      | .error u => .error u
      | .ok none => containerGo bound rest
      | .ok (some i) =>
        if i.nonEmptyB && bound.containsPauseB i then .ok (some i)
        else containerGo bound rest

/-- `PausesContainer.intersection` from `timetable/utils.py`. -/
def PausesContainer.inter (c : PausesContainer) : Except Unit (Option Pause) :=
  containerGo ⟨c.start_hour, c.end_hour⟩ (prodL (c.days.map Pauses.iterL))

/-- The "latest of all starts, earliest of all ends" description of
`Pause.intersection` used by the claims (total, no `TypeError`). -/
def comboInterSpec (combo : List Pause) : Option Pause :=
  match combo with
  | [] => none
  | p :: rest =>
    let s := (rest.map (fun q => q.start.total)).foldl Nat.max p.start.total
    let e := (rest.map (fun q => q.endH.total)).foldl Nat.min p.endH.total
    if e < s then none else some ⟨⟨s⟩, ⟨e⟩⟩

/-- A combination qualifies when its intersection is non-empty and contained
in the global bounds. -/
def comboQualifies (bound : Pause) (combo : List Pause) : Bool :=
  match comboInterSpec combo with
  | some i => i.nonEmptyB && bound.containsPauseB i
  | none => false

/-- The claim description of `PausesContainer.intersection`: the intersection
of the first qualifying combination in product order. -/
def specContainerInter (c : PausesContainer) : Option Pause :=
  ((prodL (c.days.map Pauses.iterL)).find?
      (comboQualifies ⟨c.start_hour, c.end_hour⟩)).bind comboInterSpec

/-- The claim description *including its parenthetical*: a combination that
involves a synthetic boundary pause (one not among some day's explicit
pauses) never qualifies. -/
def claimContainerInter (c : PausesContainer) : Option Pause :=
  ((prodL (c.days.map Pauses.iterL)).find?
      (fun combo =>
        comboQualifies ⟨c.start_hour, c.end_hour⟩ combo &&
        combo.all (fun p => c.days.any (fun d => d.pauses.any (fun q => decide (q = p)))))).bind
    comboInterSpec

/-- C2: `Pause.intersection` applied to a *single* operand raises `TypeError`
(`max(*(...))` unpacks to `max(h)` on a non-iterable `Hour`), although the
docstring promises the longest pause contained in all operands; with two or
more operands it does return latest-start/earliest-end, as the doctest
`Pause.intersection(Pause(8:00, 17:00), Pause(12:00, 13:00)) = Pause(12:00,
13:00)` shows. -/
theorem pause_intersection_single_operand_raises :
    Pause.interList [⟨Hour.hm 8 0, Hour.hm 9 0⟩] = .error ()
    ∧ Pause.interList [⟨Hour.hm 8 0, Hour.hm 17 0⟩, ⟨Hour.hm 12 0, Hour.hm 13 0⟩]
        = .ok (some ⟨Hour.hm 12 0, Hour.hm 13 0⟩)
    ∧ Pause.interList [⟨Hour.hm 8 0, Hour.hm 9 0⟩, ⟨Hour.hm 10 0, Hour.hm 11 0⟩]
        = .ok none := by
  refine ⟨by rfl, by rfl, by rfl⟩

/-- C4: `Pauses.__contains__` behaves exactly as the claim describes: with no
explicit pauses it is unconditionally true; otherwise a query at or outside
the day bounds is free; otherwise membership holds iff the query is contained
in at least one explicit *or implicit* pause of the day — the loop in the code
only scans the explicit pauses, but in that branch the boundary pauses cannot
contain the query (containment in the leading pause forces the query at or
before the day start, containment in the trailing pause forces it at or after
the day end, both already excluded), so the two readings agree. -/
theorem pauses_contains_matches_claim (ps : Pauses) (h : Hour) (o : Pause) :
    Pauses.containsHourB ps h = specPausesContainsHour ps h
    ∧ Pauses.containsPauseB ps o = specPausesContainsPause ps o := by
  constructor
  · unfold Pauses.containsHourB specPausesContainsHour
    by_cases hemp : ps.pauses.isEmpty
    · rw [if_pos hemp, if_pos hemp]
    · rw [if_neg hemp, if_neg hemp]
      by_cases hcond :
          (decide (h.total ≤ ps.start.total) || decide (ps.endH.total ≤ h.total)) = true
      · rw [if_pos hcond, if_pos hcond]
      · rw [if_neg hcond, if_neg hcond]
        simp only [Bool.or_eq_true, decide_eq_true_eq, not_or] at hcond
        obtain ⟨h1, h2⟩ := hcond
        have hlead : Pause.containsHourB ⟨Hour.hm 0 0, ps.start⟩ h = false := by
          simp [Pause.containsHourB, h1]
        have htrail : Pause.containsHourB ⟨ps.endH, Hour.ofTotal (-1)⟩ h = false := by
          simp [Pause.containsHourB, h2]
        rw [Pauses.iterL]
        simp [List.any_append, hlead, htrail]
  · unfold Pauses.containsPauseB specPausesContainsPause
    by_cases hemp : ps.pauses.isEmpty
    · rw [if_pos hemp, if_pos hemp]
    · rw [if_neg hemp, if_neg hemp]
      by_cases hcond :
          (decide (o.endH.total ≤ ps.start.total) || decide (ps.endH.total ≤ o.start.total)) = true
      · rw [if_pos hcond, if_pos hcond]
      · rw [if_neg hcond, if_neg hcond]
        simp only [Bool.or_eq_true, decide_eq_true_eq, not_or] at hcond
        obtain ⟨h1, h2⟩ := hcond
        have hlead : Pause.containsPauseB ⟨Hour.hm 0 0, ps.start⟩ o = false := by
          simp [Pause.containsPauseB, h1]
        have htrail : Pause.containsPauseB ⟨ps.endH, Hour.ofTotal (-1)⟩ o = false := by
          simp [Pause.containsPauseB, h2]
        rw [Pauses.iterL]
        simp [List.any_append, hlead, htrail]

/-- The Python `max` fold on hours computes the maximum total (ties keep the
earlier element, which for `Hour` is the same value). -/
theorem foldlMaxHour (l : List Hour) : ∀ x : Hour,
    l.foldl (fun a b => if a.total < b.total then b else a) x
      = ⟨(l.map Hour.total).foldl Nat.max x.total⟩ := by
  induction l with
  | nil => intro x; cases x; rfl
  | cons b l ih =>
    intro x
    rw [List.foldl_cons, List.map_cons, List.foldl_cons, ih]
    have hacc : (if x.total < b.total then b else x).total = Nat.max x.total b.total := by
      split
      · exact (Nat.max_eq_right (Nat.le_of_lt (by assumption))).symm
      · exact (Nat.max_eq_left (Nat.le_of_not_lt (by assumption))).symm
    rw [hacc]

/-- The Python `min` fold on hours computes the minimum total. -/
theorem foldlMinHour (l : List Hour) : ∀ x : Hour,
    l.foldl (fun a b => if b.total < a.total then b else a) x
      = ⟨(l.map Hour.total).foldl Nat.min x.total⟩ := by
  induction l with
  | nil => intro x; cases x; rfl
  | cons b l ih =>
    intro x
    rw [List.foldl_cons, List.map_cons, List.foldl_cons, ih]
    have hacc : (if b.total < x.total then b else x).total = Nat.min x.total b.total := by
      split
      · exact (Nat.min_eq_right (Nat.le_of_lt (by assumption))).symm
      · exact (Nat.min_eq_left (Nat.le_of_not_lt (by assumption))).symm
    rw [hacc]

/-- With at least two operands, `Pause.intersection` does not raise and
returns exactly the latest-start/earliest-end description. -/
theorem interList_ok (combo : List Pause) (h2 : 2 ≤ combo.length) :
    Pause.interList combo = .ok (comboInterSpec combo) := by
  match combo with
  | p :: q :: t =>
    rw [Pause.interList]
    simp only [List.isEmpty_cons, Bool.false_eq_true, if_false, List.map_cons]
    rw [show pyMaxHour (p.start :: q.start :: t.map (fun r => r.start))
          = .ok ((q.start :: t.map (fun r => r.start)).foldl
              (fun a b => if a.total < b.total then b else a) p.start) from rfl]
    rw [show pyMinHour (p.endH :: q.endH :: t.map (fun r => r.endH))
          = .ok ((q.endH :: t.map (fun r => r.endH)).foldl
              (fun a b => if b.total < a.total then b else a) p.endH) from rfl]
    rw [foldlMaxHour, foldlMinHour]
    have hms : List.map Hour.total (q.start :: List.map (fun r => r.start) t)
        = List.map (fun r : Pause => r.start.total) (q :: t) := by
      simp [List.map_map, Function.comp_def]
    have hme : List.map Hour.total (q.endH :: List.map (fun r => r.endH) t)
        = List.map (fun r : Pause => r.endH.total) (q :: t) := by
      simp [List.map_map, Function.comp_def]
    rw [hms, hme, comboInterSpec]
    rw [apply_ite Except.ok]

/-- Every combination produced by `prodL` has one element per factor. -/
theorem prodL_length {α : Type} : ∀ (ls : List (List α)) (combo : List α),
    combo ∈ prodL ls → combo.length = ls.length := by
  intro ls
  induction ls with
  | nil =>
    intro combo h
    simp only [prodL, List.mem_singleton] at h
    simp [h]
  | cons xs rest ih =>
    intro combo h
    simp only [prodL, List.mem_flatMap, List.mem_map] at h
    obtain ⟨x, _, t, ht, rfl⟩ := h
    simp [ih t ht]

/-- The search loop of `PausesContainer.intersection`, on combinations of at
least two pauses, is the first-qualifying-combination search of the claim. -/
theorem containerGo_eq (bound : Pause) (l : List (List Pause))
    (hl : ∀ combo ∈ l, 2 ≤ combo.length) :
    containerGo bound l = .ok ((l.find? (comboQualifies bound)).bind comboInterSpec) := by
  induction l with
  | nil => rfl
  | cons combo rest ih =>
    have hc := hl combo (by simp)
    have hrest : ∀ c ∈ rest, 2 ≤ c.length := fun c hmem => hl c (by simp [hmem])
    rw [containerGo, if_neg (by omega), interList_ok combo hc, List.find?_cons]
    cases hspec : comboInterSpec combo with
    | none => simp [comboQualifies, hspec, ih hrest]
    | some i =>
      by_cases hq : (i.nonEmptyB && bound.containsPauseB i) = true
      · simp [comboQualifies, hspec, hq]
      · simp [comboQualifies, hspec, hq, ih hrest]

/-- C3 (amended): for a container with at least two days (a single day makes
every combination a single pause and `Pause.intersection` raises `TypeError`,
see C2), `PausesContainer.intersection` returns the intersection of the first
combination, in Cartesian-product order over each day's iterated pauses, that
is non-empty and contained (inclusively) within `Pause(start_hour, end_hour)`
— and `None` when no combination qualifies.  Contrary to the claim's
parenthetical, combinations involving a synthetic boundary pause *can*
qualify (see the counterexample). -/
theorem pausesContainer_inter_amended (c : PausesContainer) (hd : 2 ≤ c.days.length) :
    c.inter = .ok (specContainerInter c) := by
  rw [PausesContainer.inter, specContainerInter]
  apply containerGo_eq
  intro combo hc
  have hlen := prodL_length (c.days.map Pauses.iterL) combo hc
  rw [List.length_map] at hlen
  omega

/-- First day of the C3 counterexample: school 10:00 to 16:00, no explicit
pauses, so iteration yields only the two synthetic boundary pauses. -/
def day1Cex : Pauses := ⟨Hour.hm 10 0, Hour.hm 16 0, []⟩

/-- Second day of the C3 counterexample: school 8:00 to 17:00 with one
explicit pause 9:00 to 10:00. -/
def day2Cex : Pauses := ⟨Hour.hm 8 0, Hour.hm 17 0, [⟨Hour.hm 9 0, Hour.hm 10 0⟩]⟩

/-- The C3 counterexample container with global bounds 8:00 to 17:00. -/
def contCex : PausesContainer := ⟨Hour.hm 8 0, Hour.hm 17 0, [day1Cex, day2Cex]⟩

/-- C3 counterexample: the code returns `Pause(9:00, 10:00)`, produced by the
combination (leading boundary pause `Pause(0:00, 10:00)` of day 1, explicit
pause `Pause(9:00, 10:00)` of day 2) — a combination involving a synthetic
boundary pause qualifies and is returned, whereas under the claim's reading
("a combination involving a synthetic boundary pause never qualifies") the
result would be `None`. -/
theorem pausesContainer_inter_boundary_counterexample :
    PausesContainer.inter contCex = .ok (some ⟨Hour.hm 9 0, Hour.hm 10 0⟩)
    ∧ claimContainerInter contCex = none := by
  exact ⟨by rfl, by rfl⟩

/-- C3 witness: the amended theorem applied to the two-day container, whose
first qualifying combination yields `Pause(9:00, 10:00)`. -/
theorem pausesContainer_inter_amended_witness :
    2 ≤ contCex.days.length
    ∧ PausesContainer.inter contCex = .ok (specContainerInter contCex)
    ∧ specContainerInter contCex = some ⟨Hour.hm 9 0, Hour.hm 10 0⟩ :=
  ⟨by decide, pausesContainer_inter_amended contCex (by decide), by rfl⟩

/-! ## Domain model: `Week`, `Lesson`, `Day`, `Timetable` -/

/-- Week type from `timetable/utils.py`: every week, left weeks, right weeks. -/
inductive Week : Type
  | ALWAYS
  | LEFT
  | RIGHT
deriving DecidableEq

/-- A lesson colour after `Lesson.__post_init__`: either the original string
(when it is not a parsable `#rrggbb` value) or the `fpdf` `DeviceRGB` triple,
whose components are the hex bytes divided by 255. -/
inductive ColorV : Type
  | strC (s : String)
  | rgbC (r g b : ℚ)
deriving DecidableEq

/-- The `DeviceRGB` value built from three hex bytes, as in
`Lesson.__post_init__`: each component is `int(hex, 16) / 255`. -/
def deviceRGBOfBytes (r g b : ℕ) : ColorV :=
  .rgbC ((r : ℚ) / 255) ((g : ℚ) / 255) ((b : ℚ) / 255)

/-- A lesson in a timetable, from `timetable/utils.py` (`room` is already a
string after `__post_init__`). -/
structure Lesson where
  start : Hour
  endH : Hour
  name : String
  teacher : String
  room : String
  color : Option ColorV
  week : Week
  removed : Bool
deriving DecidableEq

/-- A day in a timetable. -/
structure Day where
  name : String
  lessons : List Lesson
deriving DecidableEq

/-- A timetable. -/
structure Timetable where
  title : String
  days : List Day
  left_week : String
  right_week : String
deriving DecidableEq

/-! ## Hour axis: `HoursManager` from `timetable/__init__.py` -/

/-- `HoursManager.__post_init__` collects every lesson start over every day
and takes the minimum (Python `min` keeps the first minimal item; `Hour`
values with equal totals are equal, so a fold suffices). `None` when the
timetable has no lessons. -/
def hoursStartH (days : List Day) : Option Hour :=
  match (days.flatMap (fun d => d.lessons)).map (fun l => l.start) with
  | [] => none
  | x :: xs => some (xs.foldl (fun a b => if b.total < a.total then b else a) x)

/-- `HoursManager.__post_init__`: the maximum of every lesson end. -/
def hoursEndH (days : List Day) : Option Hour :=
  match (days.flatMap (fun d => d.lessons)).map (fun l => l.endH) with
  | [] => none
  | x :: xs => some (xs.foldl (fun a b => if a.total < b.total then b else a) x)

/-- The page and settings quantities entering `y_for_hour`:
`pdf.t_margin`, `settings.title_height`, `settings.day_height`, the derived
`renderer.eff_day_height`, and `settings.wrap_hour` (`None` means unset;
a set `Hour` is always truthy since `Hour` defines no `__bool__`). -/
structure AxisGeom where
  t_margin : ℚ
  title_height : ℚ
  day_height : ℚ
  eff_day_height : ℚ
  wrap_hour : Option Hour
deriving DecidableEq

/-- The wrap-hour adjustment at the top of `y_for_hour`: when the queried
hour equals `wrap_hour` subtract half an hour (`hour -= 0.5`, i.e. 30
minutes), then when the (possibly adjusted) hour exceeds `wrap_hour`
subtract a full hour. -/
def wrapAdjust (wrap : Option Hour) (h : Hour) : Hour :=
  match wrap with
  | none => h
  | some w =>
    let h1 := if h = w then h.sub (Hour.ofTotal 30) else h
    if w.total < h1.total then h1.sub (Hour.ofTotal 60) else h1

/-- The grid top used by `y_for_hour`:
`pdf.t_margin + settings.title_height + settings.day_height`. -/
def hoursGridTop (g : AxisGeom) : ℚ :=
  g.t_margin + g.title_height + g.day_height

/-- `HoursManager.y_for_hour` from `timetable/__init__.py`: after the wrap
adjustment, `grid_top + eff_day_height * ((hour - start_hour) /
int(day_length))`.  `hour - start_hour` is wrapped `Hour` subtraction,
`int(day_length)` truncates `end_hour - start_hour` to whole hours
(`Hour.__int__` is `total // 60`), and `Hour.__truediv__` divides the two
minute totals (a zero total raises `ZeroDivisionError` in Python; in `ℚ` the
division yields `0`, a case no theorem below relies on). -/
def y_for_hour (g : AxisGeom) (startH endH h : Hour) : ℚ :=
  let h2 := wrapAdjust g.wrap_hour h
  let dayLen := endH.sub startH
  let denomH := Hour.hm (dayLen.total / 60 : ℕ) 0
  hoursGridTop g + g.eff_day_height * (((h2.sub startH).total : ℚ) / (denomH.total : ℚ))

/-- Timetable used in the C1 counterexample: one day, one lesson 8:00-17:30,
giving `day_length = 9h30` — not a whole number of hours. -/
def daysC1Cex : List Day :=
  [⟨"Mon", [⟨Hour.hm 8 0, Hour.hm 17 30, "", "", "", none, .ALWAYS, false⟩]⟩]

/-- Geometry used in the C1 counterexample and witness. -/
def geomC1 : AxisGeom :=
  ⟨10, 15, 10, 100, none⟩

/-- C1 counterexample: with lessons spanning 8:00-17:30 (`day_length` 9h30,
truncated by `int(...)` to 9 hours) and `wrap_hour` unset, `y_for_hour` at
`end_hour` is `grid_top + eff_day_height * 570/540`, not the grid bottom
`grid_top + eff_day_height`: the claimed endpoint identity fails for
non-whole-hour day lengths. -/
theorem y_for_hour_end_not_bottom_counterexample :
    hoursStartH daysC1Cex = some (Hour.hm 8 0)
    ∧ hoursEndH daysC1Cex = some (Hour.hm 17 30)
    ∧ geomC1.wrap_hour = none
    ∧ y_for_hour geomC1 (Hour.hm 8 0) (Hour.hm 17 30) (Hour.hm 17 30)
        = hoursGridTop geomC1 + geomC1.eff_day_height * (570 / 540)
    ∧ y_for_hour geomC1 (Hour.hm 8 0) (Hour.hm 17 30) (Hour.hm 17 30)
        ≠ hoursGridTop geomC1 + geomC1.eff_day_height := by
  have h570 : ((570 : Int).toNat) = 570 := rfl
  have h540 : ((540 : Int).toNat) = 540 := rfl
  refine ⟨by rfl, by rfl, by rfl, ?_, ?_⟩ <;>
    norm_num [y_for_hour, hoursGridTop, geomC1, wrapAdjust, Hour.sub, Hour.hm, Hour.ofTotal,
      h570, h540]

/-- C1 (amended): with `wrap_hour` unset and at least one lesson, whenever
the day length `end_hour - start_hour` is a *whole, positive* number of hours
(so the `int(...)` truncation in the divisor is lossless), `y_for_hour` maps
`start_hour` to the grid top and `end_hour` to the grid bottom
`grid_top + eff_day_height`. -/
theorem y_for_hour_endpoints_amended (g : AxisGeom) (days : List Day) (s e : Hour) (k : ℕ)
    (hw : g.wrap_hour = none)
    (hs : hoursStartH days = some s) (he : hoursEndH days = some e)
    (hk : (e.sub s).total = 60 * k) (hk0 : 0 < k) :
    y_for_hour g s e s = hoursGridTop g
    ∧ y_for_hour g s e e = hoursGridTop g + g.eff_day_height := by
  have hadj : ∀ h : Hour, wrapAdjust g.wrap_hour h = h := by
    intro h
    rw [hw, wrapAdjust]
  have hss : (s.sub s).total = 0 := by
    rw [Hour.sub]
    simp [Hour.ofTotal]
  have hklt : 60 * k < 1440 := by
    have := Hour.ofTotal_total_lt ((e.total : Int) - (s.total : Int))
    rw [show Hour.ofTotal ((e.total : Int) - (s.total : Int)) = e.sub s from rfl, hk] at this
    exact this
  have hdenom : (Hour.hm (((e.sub s).total / 60 : ℕ) : Int) 0).total = 60 * k := by
    rw [hk, Nat.mul_div_cancel_left k (by norm_num : 0 < 60), Hour.hm]
    rw [show ((k : Int) * 60 + 0) = ((60 * k : ℕ) : Int) by push_cast; ring]
    rw [Hour.ofTotal_natCast, Nat.mod_eq_of_lt hklt]
  constructor
  · rw [y_for_hour]
    rw [hadj, hss]
    norm_num
  · rw [y_for_hour]
    rw [hadj, hdenom, hk]
    have hne : ((60 * k : ℕ) : ℚ) ≠ 0 := by
      push_cast
      positivity
    rw [div_self hne]
    ring

/-- Timetable used in the C1 witness: one day, one lesson 8:00-17:00, a
whole-hour day length of 9 hours. -/
def daysC1W : List Day :=
  [⟨"Mon", [⟨Hour.hm 8 0, Hour.hm 17 0, "", "", "", none, .ALWAYS, false⟩]⟩]

/-- C1 witness: the amended theorem applied to an 8:00-17:00 timetable on the
concrete geometry, with both endpoint identities evaluated. -/
theorem y_for_hour_endpoints_amended_witness :
    geomC1.wrap_hour = none
    ∧ hoursStartH daysC1W = some (Hour.hm 8 0)
    ∧ hoursEndH daysC1W = some (Hour.hm 17 0)
    ∧ ((Hour.hm 17 0).sub (Hour.hm 8 0)).total = 60 * 9
    ∧ 0 < 9
    ∧ (y_for_hour geomC1 (Hour.hm 8 0) (Hour.hm 17 0) (Hour.hm 8 0) = hoursGridTop geomC1
      ∧ y_for_hour geomC1 (Hour.hm 8 0) (Hour.hm 17 0) (Hour.hm 17 0)
          = hoursGridTop geomC1 + geomC1.eff_day_height) :=
  ⟨by rfl, by rfl, by rfl, by rfl, by decide,
    y_for_hour_endpoints_amended geomC1 daysC1W (Hour.hm 8 0) (Hour.hm 17 0) 9
      (by rfl) (by rfl) (by rfl) (by rfl) (by decide)⟩

/-! ## `PatchedFPDF.cell` auto-fit, from `timetable/__init__.py` -/

/-- Python `txt[-3:-2]`: the one-character slice at the third position from
the end, or the empty string when the text is shorter than three
characters. -/
def sliceNeg3 (t : String) : String :=
  if t.data.length < 3 then "" else String.mk [t.data.getD (t.data.length - 3) ' ']

/-- The font-size effect of `PatchedFPDF.cell`.  Inputs: the ambient week
labels (`left_week.get()`, `right_week.get()`), the page width / right margin
/ cursor x used by the `w == 0` replacement, the inner cell margin
`self.c_margin`, the current font size `self.font_size_pt`, the requested
width, the text, and the measured string width `self.get_string_width(txt)`
(an oracle supplied by the caller).  The result records the size at which the
inner `cell` call draws and the size left active afterwards. -/
structure CellFit where
  drawn : ℚ
  final : ℚ
deriving DecidableEq

/-- `PatchedFPDF.cell`: replace a zero width by the remaining page width;
shrink iff the text is non-empty, differs from both ambient week labels, does
not have a colon third from the end (`txt[-3:-2] != ":"` — clock labels such
as `"8:00"`), the width is truthy, and the measured width exceeds
`w - 2 * c_margin`; afterwards the original size is restored. -/
def patchedCellFontFit (leftW rightW : String) (pageW r_margin x c_margin sizePt w0 : ℚ)
    (txt : String) (strW : ℚ) : CellFit :=
  let w := if w0 = 0 then pageW - r_margin - x else w0
  if txt ≠ "" ∧ txt ≠ leftW ∧ txt ≠ rightW ∧ sliceNeg3 txt ≠ ":" ∧ w ≠ 0
      ∧ w - c_margin * 2 < strW then
    { drawn := sizePt * (w - c_margin * 2) / strW, final := sizePt }
  else
    { drawn := sizePt, final := sizePt }

/-- C9 counterexample: the text `"ab:"` *ends* in a colon, yet
`txt[-3:-2]` is `"a"`, so the code shrinks it anyway (drawn at
`12 * 8/100 = 24/25`, not the original 12): "text ending in a colon is never
shrunk" is false — the exemption actually keys on the third character from
the end. -/
theorem cell_autofit_trailing_colon_counterexample :
    ("ab:").data.getLast? = some ':'
    ∧ sliceNeg3 "ab:" = "a"
    ∧ patchedCellFontFit "G" "D" 0 0 0 1 12 10 "ab:" 100 = { drawn := 24 / 25, final := 12 }
    ∧ (24 / 25 : ℚ) ≠ 12 := by
  refine ⟨by rfl, by rfl, ?_, by norm_num⟩
  simp only [patchedCellFontFit]
  rw [if_neg (by norm_num : ¬((10 : ℚ) = 0))]
  rw [if_pos ⟨by decide, by decide, by decide, by decide, by norm_num, by norm_num⟩]
  norm_num [CellFit.mk.injEq]

/-- C9 (amended): for a non-zero explicit cell width, when the measured width
exceeds `target_width = w - 2 * c_margin` and the text is non-empty, differs
from both ambient week labels and does not have a colon third from the end,
the text draws at `sizePt * target_width / strW` and the font size afterwards
is the original; text equal to either ambient week label, or whose
third-from-last character is a colon (e.g. clock labels like `"8:00"`), is
never shrunk. -/
theorem cell_autofit_amended (leftW rightW : String) (pageW r_margin x c_margin sizePt w0 : ℚ)
    (txt : String) (strW : ℚ) (hw0 : w0 ≠ 0) :
    (txt ≠ "" → txt ≠ leftW → txt ≠ rightW → sliceNeg3 txt ≠ ":" →
      w0 - c_margin * 2 < strW →
      patchedCellFontFit leftW rightW pageW r_margin x c_margin sizePt w0 txt strW
        = { drawn := sizePt * (w0 - c_margin * 2) / strW, final := sizePt })
    ∧ (txt = leftW →
      patchedCellFontFit leftW rightW pageW r_margin x c_margin sizePt w0 txt strW
        = { drawn := sizePt, final := sizePt })
    ∧ (txt = rightW →
      patchedCellFontFit leftW rightW pageW r_margin x c_margin sizePt w0 txt strW
        = { drawn := sizePt, final := sizePt })
    ∧ (sliceNeg3 txt = ":" →
      patchedCellFontFit leftW rightW pageW r_margin x c_margin sizePt w0 txt strW
        = { drawn := sizePt, final := sizePt }) := by
  rw [patchedCellFontFit]
  simp only [if_neg hw0]
  refine ⟨?_, ?_, ?_, ?_⟩
  · intro h1 h2 h3 h4 h5
    rw [if_pos ⟨h1, h2, h3, h4, hw0, h5⟩]
  · intro h
    rw [if_neg (fun hc => hc.2.1 h)]
  · intro h
    rw [if_neg (fun hc => hc.2.2.1 h)]
  · intro h
    rw [if_neg (fun hc => hc.2.2.2.1 h)]

/-- C9 witness: the amended theorem at concrete inputs — the wide text
`"Hello"` in a width-10 cell with margin 1 and measured width 100 draws at
`12 * 8/100` and restores size 12; the left week label `"G"` and the clock
label `"8:00"` are exempt. -/
theorem cell_autofit_amended_witness :
    (10 : ℚ) ≠ 0 ∧ ("Hello" : String) ≠ "" ∧ sliceNeg3 "Hello" = "l"
    ∧ (10 : ℚ) - 1 * 2 < 100
    ∧ patchedCellFontFit "G" "D" 0 0 0 1 12 10 "Hello" 100
        = { drawn := 12 * ((10 : ℚ) - 1 * 2) / 100, final := 12 }
    ∧ patchedCellFontFit "G" "D" 0 0 0 1 12 10 "G" 100
        = { drawn := 12, final := 12 }
    ∧ patchedCellFontFit "G" "D" 0 0 0 1 12 10 "8:00" 100
        = { drawn := 12, final := 12 } :=
  ⟨by norm_num, by decide, by rfl, by norm_num,
    (cell_autofit_amended "G" "D" 0 0 0 1 12 10 "Hello" 100 (by norm_num)).1
      (by decide) (by decide) (by decide) (by decide) (by norm_num),
    (cell_autofit_amended "G" "D" 0 0 0 1 12 10 "G" 100 (by norm_num)).2.1 rfl,
    (cell_autofit_amended "G" "D" 0 0 0 1 12 10 "8:00" 100 (by norm_num)).2.2.2 (by decide)⟩

/-! ## `LessonMetrics.calculate`, from `timetable/__init__.py` -/

/-- Metrics about a lesson cell (the fields `calculate` reads and writes;
`week_height` models the pdf-derived `week_height` property and is passed as
an argument). -/
structure LessonMetrics where
  x : ℚ
  start_y : ℚ
  end_y : ℚ
  week_y_pos : ℚ
  day_width : ℚ
  cell_height : ℚ
  top_padding : ℚ
  bottom_padding : ℚ
  top_bottom_padding : ℚ
deriving DecidableEq

/-- `LessonMetrics.height`: `end_y - start_y`. -/
def LessonMetrics.height (m : LessonMetrics) : ℚ :=
  m.end_y - m.start_y

/-- `LessonMetrics.calculate(week_shown, items_n)` from
`timetable/__init__.py`, kept line for line: note the comparison against
`self.week_height * 0` (literally zero) deciding the chip position, and the
final `top_bottom_padding < 0` fix-up (dead, since `max(..., 0)` was just
assigned).  `items_n = 0` raises `ZeroDivisionError` in Python; the theorems
below only use positive values. -/
def LessonMetrics.calculate (m : LessonMetrics) (week_height : ℚ) (week_shown : Bool)
    (items_n : ℕ) : LessonMetrics :=
  let cell_height := min 7 (m.height / items_n)
  let tbp := max ((m.height - items_n * cell_height) / 2) 0
  let m1 := { m with cell_height := cell_height, top_bottom_padding := tbp }
  if week_shown then
    let m2 :=
      if tbp + m1.bottom_padding ≥ week_height * 0 then
        { m1 with week_y_pos := m1.end_y - week_height,
                  bottom_padding := m1.bottom_padding + week_height / 2.5 }
      else
        { m1 with week_y_pos := m1.start_y,
                  top_padding := m1.top_padding + week_height / 2.5 }
    if m2.top_bottom_padding < 0 then
      if m2.week_y_pos = m2.start_y then
        { m2 with top_padding := m2.top_padding + -m2.top_bottom_padding,
                  top_bottom_padding := 0 }
      else
        { m2 with bottom_padding := m2.bottom_padding + -m2.top_bottom_padding,
                  top_bottom_padding := 0 }
    else m2
  else m1

/-- The C10 failing metrics: a 3 mm tall lesson band with no padding. -/
def metricsC10 : LessonMetrics :=
  ⟨0, 0, 3, 0, 0, 0, 0, 0, 0⟩

/-- C10: with a 3 mm band, one item and a 5 mm chip, the leftover padding is
`0`, well below half the chip height `5/2`, yet the code still places the
chip at the bottom (`week_y_pos = end_y - week_height = -2`, and the bottom
padding gains `week_height / 2.5 = 2`) because the guard compares against
`self.week_height * 0`, which is always `0` — contradicting both the claim
and the code's own comment ("If there is enough space to display the week at
the bottom, display it there"). -/
theorem lesson_week_chip_always_bottom :
    (metricsC10.calculate 5 true 1).week_y_pos = metricsC10.end_y - 5
    ∧ (metricsC10.calculate 5 true 1).week_y_pos ≠ metricsC10.start_y
    ∧ (metricsC10.calculate 5 true 1).bottom_padding = 2
    ∧ max ((metricsC10.height - 1 * min 7 (metricsC10.height / 1)) / 2) 0
        + metricsC10.bottom_padding < 5 / 2 := by
  refine ⟨?_, ?_, ?_, ?_⟩ <;> norm_num [LessonMetrics.calculate, LessonMetrics.height, metricsC10]

/-! ## The lesson-line grammar (`get_lesson` in `timetable/tt_parser.py`)

The verbose regex

```
^(?P<start>\d+[:h]\d+) \s*-\s* (?P<end>\d+[:h]\d+)
 (?:\s+(?P<name>(?:[^#].*?)?))?  (?:\s+-\s+(?P<teacher>(?:[^#].*?)?))?
 (?:\s+\((?P<room>.*?)\))?       (?:\s+\((?P<week>.*?)\))?
 (?:\s+(?P<color>\#.*?))?        (?P<removed>\s+-\s+Dispensé)?$
```

is embedded as a backtracking search.  Each quantifier is a *candidate list*
ordered by the preference of the Python engine (greedy `+`/`*`: longest
first; lazy `.*?`: shortest first; optional group: present before absent),
and the chained depth-first search commits to the first sequence of choices
that reaches the end of the line — exactly the match Python returns. -/

/-- Depth-first search: the first candidate whose continuation succeeds. -/
def firstSome {α β : Type} : List α → (α → Option β) → Option β
  | [], _ => none
  | x :: xs, f => match f x with
    | some b => some b
    | none => firstSome xs f

/-- Python `\s`: ASCII whitespace (the embedded documents only use spaces). -/
def isSpacePy (c : Char) : Bool :=
  c = ' ' || c = '\t' || c = '\n' || c = '\r' || c = '\x0b' || c = '\x0c'

/-- Candidates of a greedy `p+`: consume 1 to all leading `p`-characters,
longest first. -/
def splitsPlus (p : Char → Bool) (cs : List Char) : List (List Char × List Char) :=
  let n := (cs.takeWhile p).length
  (List.range n).map (fun j => (cs.take (n - j), cs.drop (n - j)))

/-- Candidates of a greedy `p*`: consume 0 to all leading `p`-characters,
longest first. -/
def splitsStar (p : Char → Bool) (cs : List Char) : List (List Char × List Char) :=
  let n := (cs.takeWhile p).length
  (List.range (n + 1)).map (fun j => (cs.take (n - j), cs.drop (n - j)))

/-- Candidates of a lazy `.*?` (`.` excludes the newline): shortest first. -/
def splitsLazyAny (cs : List Char) : List (List Char × List Char) :=
  let n := (cs.takeWhile (fun c => c ≠ '\n')).length
  (List.range (n + 1)).map (fun k => (cs.take k, cs.drop k))

/-- Candidates of `\d+[:h]\d+` (the `start`/`end` groups). -/
def hourTokSplits (cs : List Char) : List (String × List Char) :=
  (splitsPlus Char.isDigit cs).flatMap fun a =>
    match a.2 with
    | c :: cs2 =>
      if c = ':' ∨ c = 'h' then
        (splitsPlus Char.isDigit cs2).map fun b => (String.mk (a.1 ++ c :: b.1), b.2)
      else []
    | [] => []

/-- Candidates of the `\s*-\s*` separator between the two hour tokens. -/
def dashSepSplits (cs : List Char) : List (List Char) :=
  (splitsStar isSpacePy cs).flatMap fun a =>
    match a.2 with
    | '-' :: cs2 => (splitsStar isSpacePy cs2).map (fun b => b.2)
    | _ => []

/-- Candidates of the inner `(?:[^#].*?)?` of the name and teacher groups:
one non-`#` character followed by a lazy tail, then the empty alternative. -/
def nameBodyCands (cs : List Char) : List (String × List Char) :=
  (match cs with
   | c :: cs2 =>
     if c ≠ '#' then (splitsLazyAny cs2).map (fun r => (String.mk (c :: r.1), r.2)) else []
   | [] => []) ++ [("", cs)]

/-- Candidates of `(?:\s+(?P<name>(?:[^#].*?)?))?`. -/
def nameGroupCands (cs : List Char) : List (Option String × List Char) :=
  ((splitsPlus isSpacePy cs).flatMap fun sp =>
    (nameBodyCands sp.2).map (fun g => (some g.1, g.2))) ++ [(none, cs)]

/-- Candidates of `(?:\s+-\s+(?P<teacher>(?:[^#].*?)?))?`. -/
def teacherGroupCands (cs : List Char) : List (Option String × List Char) :=
  ((splitsPlus isSpacePy cs).flatMap fun sp1 =>
    match sp1.2 with
    | '-' :: cs2 =>
      (splitsPlus isSpacePy cs2).flatMap fun sp2 =>
        (nameBodyCands sp2.2).map (fun g => (some g.1, g.2))
    | _ => []) ++ [(none, cs)]

/-- Candidates of `(?:\s+\((?P<g>.*?)\))?` (the room and week groups). -/
def parenGroupCands (cs : List Char) : List (Option String × List Char) :=
  ((splitsPlus isSpacePy cs).flatMap fun sp =>
    match sp.2 with
    | '(' :: cs2 =>
      (splitsLazyAny cs2).flatMap fun r =>
        match r.2 with
        | ')' :: cs3 => [(some (String.mk r.1), cs3)]
        | _ => []
    | _ => []) ++ [(none, cs)]

/-- Candidates of `(?:\s+(?P<color>\#.*?))?`; the captured group includes the
leading `#`. -/
def colorGroupCands (cs : List Char) : List (Option String × List Char) :=
  ((splitsPlus isSpacePy cs).flatMap fun sp =>
    match sp.2 with
    | '#' :: cs2 => (splitsLazyAny cs2).map (fun r => (some (String.mk ('#' :: r.1)), r.2))
    | _ => []) ++ [(none, cs)]

/-- Consume an exact literal, returning the rest of the input. -/
def takeLiteral : List Char → List Char → Option (List Char)
  | [], cs => some cs
  | l :: ls, c :: cs => if c = l then takeLiteral ls cs else none
  | _ :: _, [] => none

/-- Candidates of `(?P<removed>\s+-\s+Dispensé)?`; the capture spans the
whole suffix (only its truthiness is used). -/
def removedGroupCands (cs : List Char) : List (Option String × List Char) :=
  ((splitsPlus isSpacePy cs).flatMap fun sp1 =>
    match sp1.2 with
    | '-' :: cs2 =>
      (splitsPlus isSpacePy cs2).flatMap fun sp2 =>
        match takeLiteral ("Dispensé").data sp2.2 with
        | some rest => [(some (String.mk (sp1.1 ++ '-' :: (sp2.1 ++ ("Dispensé").data))), rest)]
        | none => []
    | _ => []) ++ [(none, cs)]

/-- The captured groups of a lesson line. -/
structure LessonGroups where
  start : String
  endS : String
  name : Option String
  teacher : Option String
  room : Option String
  week : Option String
  color : Option String
  removed : Option String
deriving DecidableEq

/-- `get_lesson(line)`: `re.match` of the lesson pattern against the whole
line (the pattern ends in `$` and lines contain no newline, so a match must
exhaust the input). -/
def get_lesson (line : String) : Option LessonGroups :=
  firstSome (hourTokSplits line.data) fun s1 =>
  firstSome (dashSepSplits s1.2) fun cs2 =>
  firstSome (hourTokSplits cs2) fun s2 =>
  firstSome (nameGroupCands s2.2) fun gN =>
  firstSome (teacherGroupCands gN.2) fun gT =>
  firstSome (parenGroupCands gT.2) fun gR =>
  firstSome (parenGroupCands gR.2) fun gW =>
  firstSome (colorGroupCands gW.2) fun gC =>
  firstSome (removedGroupCands gC.2) fun gX =>
  if gX.2 = [] then
    some ⟨s1.1, s2.1, gN.1, gT.1, gR.1, gW.1, gC.1, gX.1⟩
  else none

/-! ## `TimetableParser`, from `timetable/tt_parser.py` -/

/-- The number denoted by a list of ASCII digits. -/
def natOfDigits (cs : List Char) : ℕ :=
  cs.foldl (fun a c => a * 10 + (c.toNat - 48)) 0

/-- `Hour(string)`: split at the first `:` (or, failing that, `h`) and feed
the two numeric parts to the hour/minute constructor.  The lesson grammar
guarantees the parts are plain digit runs. -/
def Hour.ofHourString (s : String) : Hour :=
  let sep := if s.data.contains ':' then ':' else 'h'
  let h := natOfDigits (s.data.takeWhile (fun c => c ≠ sep))
  let m := natOfDigits ((s.data.dropWhile (fun c => c ≠ sep)).drop 1)
  Hour.hm h m

/-- The value of one hex digit, or `none` (Python `int(s, 16)` raises
`ValueError` on non-hex input; forms such as whitespace or a `0x` prefix
never reach this code because the colour string has exactly 7 characters
starting with `#`). -/
def hexDigit? (c : Char) : Option ℕ :=
  if '0' ≤ c ∧ c ≤ '9' then some (c.toNat - 48)
  else if 'a' ≤ c ∧ c ≤ 'f' then some (c.toNat - 87)
  else if 'A' ≤ c ∧ c ≤ 'F' then some (c.toNat - 55)
  else none

/-- `Lesson.__post_init__`: a 7-character string starting with `#` whose three
hex pairs parse becomes a `DeviceRGB` with each byte divided by 255; any
`ValueError` is swallowed and the string kept. -/
def postInitColor (s : String) : ColorV :=
  match s.data with
  | ['#', c1, c2, c3, c4, c5, c6] =>
    match hexDigit? c1, hexDigit? c2, hexDigit? c3, hexDigit? c4, hexDigit? c5, hexDigit? c6 with
    | some a, some b, some c, some d, some e, some f =>
      deviceRGBOfBytes (16 * a + b) (16 * c + d) (16 * e + f)
    | _, _, _, _, _, _ => .strC s
  | _ => .strC s

/-- Python `str.strip()`: drop ASCII whitespace from both ends. -/
def pyStrip (s : String) : String :=
  String.mk (((s.data.dropWhile isSpacePy).reverse.dropWhile isSpacePy).reverse)

/-- Split a character list at newlines (an empty input yields one empty
piece, as Python `str.split` would). -/
def splitNl : List Char → List (List Char)
  | [] => [[]]
  | c :: cs =>
    if c = '\n' then [] :: splitNl cs
    else
      match splitNl cs with
      | [] => [[c]]
      | p :: ps => (c :: p) :: ps

/-- ASCII `str.lower()` (the config values compared here are ASCII). -/
def toLowerAscii (s : String) : String :=
  String.mk (s.data.map (fun c => if 'A' ≤ c ∧ c ≤ 'Z' then Char.ofNat (c.toNat + 32) else c))

/-- Python `int(string)` on an optionally signed decimal numeral (the only
shapes that reach `int()` here); anything else raises `ValueError`, modelled
as `none`. -/
def pyToInt? (s : String) : Option Int :=
  match s.data with
  | [] => none
  | '-' :: ds =>
    if ds ≠ [] ∧ ds.all Char.isDigit then some (-(natOfDigits ds : Int)) else none
  | '+' :: ds =>
    if ds ≠ [] ∧ ds.all Char.isDigit then some ((natOfDigits ds : Int)) else none
  | ds =>
    if ds ≠ [] ∧ ds.all Char.isDigit then some ((natOfDigits ds : Int)) else none

/-- The errors of `tt_parser.py`: `ParseError(line, msg)` (which formats
itself as `"line {line}: {msg}"` and carries both fields), and the plain
`ValueError(msg)` raised for an unterminated config section, which has *no*
line number. -/
inductive ParseErr : Type
  | parseError (line : ℕ) (msg : String)
  | valueError (msg : String)
deriving DecidableEq

/-- Python `repr` of the simple strings interpolated into error messages
(no escaping needed for the documents used here). -/
def pyRepr (s : String) : String :=
  "\x27" ++ s ++ "\x27"

/-- `is_hr`: `^---+$` — at least three characters, all dashes. -/
def is_hr (line : String) : Bool :=
  3 ≤ line.data.length && line.data.all (fun c => c = '-')

/-- `str.partition(":")`, keeping only the head and tail: the tail is empty
exactly when the line has no colon or ends right after it. -/
def partitionColon (s : String) : String × String :=
  let pre := s.data.takeWhile (fun c => c ≠ ':')
  let post := s.data.dropWhile (fun c => c ≠ ':')
  (String.mk pre, String.mk (post.drop 1))

/-- The mutable state of `TimetableParser`: config mode flag, the config map
(modelled as a prepend list, lookup takes the most recent write), the pending
day name, whether `current_day` is set (it is always the last day appended to
the timetable), and the days built so far. -/
structure PState where
  in_config : Bool
  config : List (String × String)
  current_day_name : Option String
  day_open : Bool
  days : List Day
deriving DecidableEq

/-- `self.config.get(key)`. -/
def cfgGet (cfg : List (String × String)) (k : String) : Option String :=
  (cfg.find? (fun p => p.1 == k)).map (fun p => p.2)

/-- Append a lesson to the currently open day, which is always the last day
of the list (`self.current_day.lessons.append(lesson)`). -/
def appendLessonLast : List Day → Lesson → List Day
  | [], _ => []
  | [d], l => [⟨d.name, d.lessons ++ [l]⟩]
  | d :: ds, l => d :: appendLessonLast ds l

/-- One iteration of the `TimetableParser.__init__` loop: strip the line,
then try the `parse_*` methods in definition order
(`parse_empty_line_or_comment`, `parse_config_begin`, `parse_config_end`,
`parse_config_option`, `parse_lesson`, `parse_hr`, `parse_day_name`), the
first that handles the line wins.  `parse_day_name` handles everything that
reaches it, so the final "No parser handled this line" raise is unreachable.
Lint warnings are not modelled (they never alter the parse result). -/
def lineStep (i : ℕ) (raw : String) (st : PState) : Except ParseErr PState :=
  let line := pyStrip raw
  if line = "" then .ok st
  else if line.data.headD ' ' = '#' then .ok st
  else if i == 1 && is_hr line then .ok { st with in_config := true }
  else if st.in_config && is_hr line then .ok { st with in_config := false }
  else if st.in_config then
    let nv := partitionColon line
    if nv.2 = "" then .error (.parseError i ("Invalid config option: " ++ pyRepr line))
    else .ok { st with config := (pyStrip nv.1, pyStrip nv.2) :: st.config }
  else
    match get_lesson line with
    | some g =>
      if st.day_open = false then
        .error (.parseError i "No current day, maybe you forgot to add --- after the day name?")
      else
        let nm := (g.name.getD "")
        let color0 : Option String :=
          if (g.color.getD "") ≠ "" then g.color else cfgGet st.config ("color." ++ nm)
        let addLesson : Week → Except ParseErr PState := fun week =>
          let lesson : Lesson :=
            ⟨Hour.ofHourString g.start, Hour.ofHourString g.endS, nm, g.teacher.getD "",
              g.room.getD "", color0.map postInitColor, week, g.removed.isSome⟩
          .ok { st with days := appendLessonLast st.days lesson }
        let wk := g.week.getD ""
        if wk = "" then addLesson .ALWAYS
        else if cfgGet st.config "left_week" = some wk then addLesson .LEFT
        else if cfgGet st.config "right_week" = some wk then addLesson .RIGHT
        else .error (.parseError i ("Invalid week: " ++ pyRepr wk))
    | none =>
      if is_hr line then
        if st.current_day_name.isSome && st.day_open = false then
          .ok { st with days := st.days ++ [⟨st.current_day_name.getD "", []⟩], day_open := true }
        else
          .error (.parseError i ("Unexpected horizontal line at line " ++ toString i))
      else
        if st.current_day_name.isSome && st.day_open = false then
          .error (.parseError i
            ("Unexpected day name at line " ++ toString i
              ++ ", maybe you meant to create a config section?"))
        else .ok { st with current_day_name := some line, day_open := false }

/-- The enumerated loop over the input lines. -/
def runLines : List (ℕ × String) → PState → Except ParseErr PState
  | [], st => .ok st
  | (i, line) :: rest, st =>
    match lineStep i line st with
    | .error e => .error e
    | .ok st2 => runLines rest st2

/-- `str.splitlines()` for `\n`-separated text: splitting drops a single
trailing empty piece (Python yields no entry for a final newline) and the
empty string yields no lines at all. -/
def pySplitlines (s : String) : List String :=
  if s.data = [] then []
  else
    let parts := splitNl s.data
    (if parts.getLast? = some [] then parts.dropLast else parts).map String.mk

/-- The settings the parser extracts from the config map. -/
structure ParsedSettings where
  hours_width : Option Int
  title_shadow : Bool
deriving DecidableEq

/-- `int(self.config["hours_width"])` when the key is present;
`String.toInt?` models `int()` on the plain (optionally signed) decimal
numerals that can appear here, and a failure is the constructor's
uncaught `ValueError`. -/
def hoursWidthSetting (cfg : List (String × String)) : Except ParseErr (Option Int) :=
  match cfgGet cfg "hours_width" with
  | none => .ok none
  | some s =>
    match pyToInt? s with
    | some n => .ok (some n)
    | none => .error (.valueError ("invalid literal for int() with base 10: " ++ pyRepr s))

/-- The result of a successful parse: the `Timetable` plus the recognized
settings. -/
structure ParseOutput where
  timetable : Timetable
  settings : ParsedSettings
deriving DecidableEq

/-- The initial parser state. -/
def initPState : PState :=
  ⟨false, [], none, false, []⟩

/-- `TimetableParser(data)`: run every line through the dispatch loop
(line numbers start at 1), raise the bare
`ValueError("Unexpected end of config, ...")` when the input ends in config
mode, then assemble the timetable (`title` defaults to `"Timetable"`,
week labels default to `""`) and the recognized settings. -/
def parseTimetable (data : String) : Except ParseErr ParseOutput :=
  match runLines ((pySplitlines data).enum.map (fun p => (p.1 + 1, p.2))) initPState with
  | .error e => .error e
  | .ok st =>
    if st.in_config then
      .error (.valueError
        "Unexpected end of config, maybe you forgot to add --- at the end of the config?")
    else
      match hoursWidthSetting st.config with
      | .error e => .error e
      | .ok hw =>
        .ok ⟨⟨(cfgGet st.config "title").getD "Timetable", st.days,
              (cfgGet st.config "left_week").getD "", (cfgGet st.config "right_week").getD ""⟩,
            ⟨hw, toLowerAscii ((cfgGet st.config "title_shadow").getD "") == "true"⟩⟩

/-- The C6 document: a config block setting `left_week: A`, one day, and the
lesson line from the claim. -/
def docC6 : String :=
  "---\nleft_week: A\n---\nMonday\n------\n8:00 - 9:00 Math - Smith (101) (A) #ff0000"

/-- C6: parsing the lesson line
`"8:00 - 9:00 Math - Smith (101) (A) #ff0000"` under config `left_week: A`
yields a `Lesson` with start 8:00, end 9:00, name `"Math"`, teacher
`"Smith"`, room `"101"`, week `LEFT`, `removed = False` and colour
`DeviceRGB` parsed from `#ff0000` (bytes 255, 0, 0), appended to the
currently open day `"Monday"`. -/
theorem parse_lesson_line_c6 :
    parseTimetable docC6
      = .ok ⟨⟨"Timetable",
          [⟨"Monday", [⟨Hour.hm 8 0, Hour.hm 9 0, "Math", "Smith", "101",
            some (deviceRGBOfBytes 255 0 0), .LEFT, false⟩]⟩],
          "A", ""⟩, ⟨none, false⟩⟩ := by
  rfl

/-- The C5 document with an unterminated config section. -/
def docUnterm : String :=
  "---\nleft_week: A"

/-- `true` exactly on errors that are a `ParseError` (and therefore carry a
line number). -/
def errHasLine : Except ParseErr ParseOutput → Bool
  | .error (.parseError _ _) => true
  | _ => false

/-- C5 counterexample: an unterminated config section at end of input aborts
the parse with the *bare* `ValueError` of `TimetableParser.__init__`, not a
`ParseError`, so this fatal failure carries no line number. -/
theorem parser_unterminated_config_counterexample :
    parseTimetable docUnterm
      = .error (.valueError
          "Unexpected end of config, maybe you forgot to add --- at the end of the config?")
    ∧ errHasLine (parseTimetable docUnterm) = false := by
  exact ⟨by rfl, by rfl⟩

/-- C5 (amended): a lesson line with no open day, an invalid week token, a
config option with no value and a misplaced horizontal rule each raise a
`ParseError` carrying the line number and a message and abort the parse with
no timetable returned; the unterminated config section at end of input also
aborts the parse, but through a plain `ValueError` without a line number. -/
theorem parser_fatal_errors_amended :
    parseTimetable "8:00 - 9:00 Math"
      = .error (.parseError 1 "No current day, maybe you forgot to add --- after the day name?")
    ∧ parseTimetable "Monday\n------\n8:00 - 9:00 Math (101) (B)"
      = .error (.parseError 3 ("Invalid week: " ++ pyRepr "B"))
    ∧ parseTimetable "---\nfoo\n---"
      = .error (.parseError 2 ("Invalid config option: " ++ pyRepr "foo"))
    ∧ parseTimetable "Monday\n------\n------"
      = .error (.parseError 3 "Unexpected horizontal line at line 3")
    ∧ parseTimetable docUnterm
      = .error (.valueError
          "Unexpected end of config, maybe you forgot to add --- at the end of the config?") := by
  exact ⟨by rfl, by rfl, by rfl, by rfl, by rfl⟩
